import Mathlib

/-!
# gokvstore: an ordered key-value store over a three-column relation

A shallow embedding of `store_sqlite.go` and `store_postgres.go`.

The Go code holds no data of its own: every operation binds its arguments into
a prepared SQL statement and hands it to the backend.  The embedding therefore
has two layers.

* The *statements*: each prepared statement of `NewStoreSqlite` /
  `NewStorePostgresWithValueType` is a function on the contents of the relation
  `KV(K, V, T)`, written next to the SQL text it stands for.
* The *methods*: each Go method is translated line by line over those
  statements, with the control flow of the source (the `currentTransaction`
  branch, the `for res.Next()` loops, `Scan`, the stop flag, the early
  returns).

Modelling conventions.

* SQLite.  `NewStoreSqlite` declares `K string primary key, V string, T string`.
  `string` is none of the type names SQLite maps to TEXT, so the three columns
  have NUMERIC affinity: a text that is a well-formed integer literal is stored
  as an INTEGER, and a text bound to a parameter that is compared with a column
  is converted the same way.  Stored cells are `Cell`s (an integer or a text),
  ordered as the engine orders them: integers by value, texts byte-wise, every
  integer before every text.  `Scan` into a `string` gives back an integer in
  decimal.  A text the engine would turn into a floating-point number has no
  place in the embedding: the arguments of the SQLite methods are `Param`s,
  which exclude it.
* SQLite transactions.  The statements of a `*sql.Tx` run on the connection of
  the transaction, every other statement on another connection of the pool.
  The rows written through the transaction are `pending`: the other statements
  do not see them, a commit applies them, a failed commit is followed by the
  rollback of the driver and drops them.  While rows are pending the
  transaction holds the write lock and a write through the pool fails.
* Postgres.  `K text, V jsonb, T text`: cells are texts, compared byte-wise
  (`keyLE`).  The normalisation of `jsonb` values and collations other than the
  byte order are not modelled.
* A statement otherwise fails only when the backend does (lost connection, I/O
  error).  Such a failure is an input of the method: the argument `fault`.
  `none` is a healthy backend.
* A Go callback is a closure over mutable caller state.  Here it is a function
  on an explicit state `σ` that returns the new state and the value it leaves
  in `*stop`.  Every iteration also returns the list of argument triples the
  callback was invoked with (`calls`), which no Go variable holds: it is there
  so that theorems can speak about the invocations.
* `gotils.CheckNotFatal` only logs its argument; `log.Fatalln` ends the
  process, which is the result `Outcome.fatal`.
-/

namespace Gokvstore

/-! ## Entries as the callers see them -/

/-- One entry `(Key, Value, Tag)` as text: a row of the Postgres table, and a
row of a result set of either backend. -/
structure Row where
  K : String
  V : String
  T : String
deriving DecidableEq

/-- A relation of text rows, in storage order. -/
abbrev Table := List Row

/-- Errors that reach the Go code as a non-nil `err`. -/
inductive SqlError where
  /-- the backend failed to run the statement -/
  | backend (msg : String)
  /-- `Rows.Scan` was given a number of destinations other than the number of columns -/
  | scanArity (columns : Nat) (dests : Nat)
  /-- `Rows.Scan` met a NULL for a `*string` destination -/
  | scanNull
  /-- Postgres rejects a negative `LIMIT` -/
  | negativeLimit
  /-- SQLite: another connection holds the write lock (`database is locked`) -/
  | locked
deriving DecidableEq

/-- Byte-wise comparison of two texts, `a <= b`. -/
def keyLE (a b : String) : Bool := decide (a.toList ≤ b.toList)

/-- The primary-key constraint on a text relation: no two rows share a key. -/
def KeysUnique (tbl : Table) : Prop := (tbl.map Row.K).Nodup

instance (tbl : Table) : Decidable (KeysUnique tbl) := by
  unfold KeysUnique; infer_instance

/-- The columns `K, V, T` of a row, as a result set delivers them. -/
def Row.cols (r : Row) : List String := [r.K, r.V, r.T]

/-- `ORDER BY K ASC` (also the plain `ORDER BY K`) on text keys. -/
def orderByKAsc (tbl : Table) : Table :=
  tbl.insertionSort (fun a b => keyLE a.K b.K = true)

/-- `ORDER BY K DESC` on text keys. -/
def orderByKDesc (tbl : Table) : Table :=
  tbl.insertionSort (fun a b => keyLE b.K a.K = true)

/-- `LIMIT n` in SQLite: a negative `n` means no limit. -/
def limitSqlite {α : Type} (n : Int) (rows : List α) : List α :=
  if n < 0 then rows else rows.take n.toNat

/-- `LIMIT n` in Postgres: a negative `n` is an error of the statement. -/
def limitPostgres (n : Int) (rows : Table) : Except SqlError Table :=
  if n < 0 then .error .negativeLimit else .ok (rows.take n.toNat)

/-! ## SQLite: storage classes and NUMERIC affinity -/

/-- The white space SQLite skips around a numeric literal: the space and the
characters 9 to 13. -/
def isSpace (c : Char) : Bool := c.toNat = 32 || (9 ≤ c.toNat && c.toNat ≤ 13)

/-- An ASCII digit. -/
def isDigit (c : Char) : Bool := 48 ≤ c.toNat && c.toNat ≤ 57

/-- The number written by a list of digits. -/
def digitsValue (ds : List Char) : Nat := ds.foldl (fun n c => 10 * n + (c.toNat - 48)) 0

/-- What SQLite makes of a text under NUMERIC affinity. -/
inductive Kind where
  /-- a well-formed integer literal that fits 64 bits: stored as this INTEGER -/
  | int (n : Int)
  /-- a numeric literal with a fraction or an exponent, or an integer literal
  beyond 64 bits: the engine goes through a floating-point number -/
  | float
  /-- anything else: stored as the TEXT it is -/
  | text
deriving DecidableEq

/-- An optional sign: whether it was `-`, and the rest. -/
def dropSign : List Char → Bool × List Char
  | c :: r => if c = '-' then (true, r) else if c = '+' then (false, r) else (false, c :: r)
  | [] => (false, [])

/-- An optional fraction: whether there was a `.`, its digits, and the rest. -/
def fraction : List Char → Bool × List Char × List Char
  | c :: r =>
    if c = '.' then (true, r.takeWhile isDigit, r.dropWhile isDigit) else (false, [], c :: r)
  | [] => (false, [], [])

/-- An optional exponent: whether there was an `e` or `E`, whether digits
followed it (true when there was none), and the rest. -/
def exponent : List Char → Bool × Bool × List Char
  | c :: r =>
    if c = 'e' ∨ c = 'E' then
      let r1 := (dropSign r).2
      (true, !(r1.takeWhile isDigit).isEmpty, r1.dropWhile isDigit)
    else (false, true, c :: r)
  | [] => (false, true, [])

/-- The numeric-literal test of SQLite on a text: white space, an optional
sign, digits, an optional fraction, an optional exponent, white space; at
least one digit before the exponent. -/
def classify (s : String) : Kind :=
  let z := s.toList.dropWhile isSpace
  let sg := dropSign z
  let ip := sg.2.takeWhile isDigit
  let fr := fraction (sg.2.dropWhile isDigit)
  let ex := exponent fr.2.2
  let rest := ex.2.2.dropWhile isSpace
  if rest = [] ∧ 0 < ip.length + fr.2.1.length ∧ ex.2.1 = true then
    if fr.1 = true ∨ ex.1 = true then .float
    else
      let v : Int := if sg.1 then -(digitsValue ip : Int) else (digitsValue ip : Int)
      if -9223372036854775808 ≤ v ∧ v ≤ 9223372036854775807 then .int v else .float
  else .text

/-- A Go `string` passed to a method of the SQLite store, other than those the
engine turns into a floating-point number. -/
structure Param where
  str : String
  noFloat : classify str ≠ Kind.float

/-- The empty string, the tag `""` of the source. -/
def Param.empty : Param := ⟨"", by decide⟩

/-- A stored value of a column with NUMERIC affinity: an INTEGER or a TEXT. -/
inductive Cell where
  | int (n : Int)
  | text (s : String)
deriving DecidableEq

/-- NUMERIC affinity applied to a bound text: an integer literal becomes the
INTEGER, any other text stays. -/
def affinity (p : Param) : Cell :=
  match classify p.str with
  | .int n => .int n
  | _ => .text p.str

/-- What `Scan` into a `*string` gives for a cell: an INTEGER in decimal, a
TEXT as it is. -/
def Cell.readBack : Cell → String
  | .int n => toString n
  | .text s => s

/-- The order of SQLite on cells, `a <= b`: integers by value, texts
byte-wise, every integer before every text. -/
def cellLE : Cell → Cell → Bool
  | .int a, .int b => decide (a ≤ b)
  | .int _, .text _ => true
  | .text _, .int _ => false
  | .text a, .text b => keyLE a b

/-- One stored row of the SQLite relation `KV(K, V, T)`. -/
structure CellRow where
  K : Cell
  V : Cell
  T : Cell
deriving DecidableEq

/-- The contents of the SQLite relation, in storage order. -/
abbrev CellTable := List CellRow

/-- A stored row as a result set delivers it to `string` destinations. -/
def CellRow.read (r : CellRow) : Row := ⟨r.K.readBack, r.V.readBack, r.T.readBack⟩

/-- `ORDER BY K ASC` (also the plain `ORDER BY K`) in SQLite. -/
def cellOrderAsc (tbl : CellTable) : CellTable :=
  tbl.insertionSort (fun a b => cellLE a.K b.K = true)

/-- `ORDER BY K DESC` in SQLite. -/
def cellOrderDesc (tbl : CellTable) : CellTable :=
  tbl.insertionSort (fun a b => cellLE b.K a.K = true)

/-- The smallest cell of a list, `none` for the empty list (SQL `MIN`). -/
def minCell : List Cell → Option Cell
  | [] => none
  | k :: ks =>
    match minCell ks with
    | none => some k
    | some m => if cellLE k m then some k else some m

/-- The largest cell of a list, `none` for the empty list (SQL `MAX`). -/
def maxCell : List Cell → Option Cell
  | [] => none
  | k :: ks =>
    match maxCell ks with
    | none => some k
    | some m => if cellLE m k then some k else some m

/-- The one row of `SELECT COUNT(K), MIN(K), MAX(K) FROM KV`: the count is an
integer, the two aggregates are NULL (`none`) over zero rows. -/
structure CountRow where
  count : Int
  min : Option String
  max : Option String
deriving DecidableEq

/-! ## The prepared statements of `NewStoreSqlite` -/

namespace Sqlite

/-- The row written by `INSERT OR REPLACE INTO KV(K, V, T) VALUES(?, ?, ?)`:
the three bound texts under the affinity of their columns. -/
def insertedRow (k v t : Param) : CellRow := ⟨affinity k, affinity v, affinity t⟩

/-- `INSERT OR REPLACE` of one row: the row in conflict on the primary key is
deleted, then the new row is inserted. -/
def insertRow (r : CellRow) (tbl : CellTable) : CellTable :=
  tbl.filter (fun x => x.K ≠ r.K) ++ [r]

/-- `INSERT OR REPLACE INTO KV(K, V, T) VALUES(?, ?, ?)`. -/
def InsertStmt (k v t : Param) (tbl : CellTable) : CellTable :=
  insertRow (insertedRow k v t) tbl

/-- `SELECT K, V, T FROM KV WHERE K=?`. -/
def GetStmt (k : Param) (tbl : CellTable) : List (List String) :=
  (tbl.filter (fun r => r.K = affinity k)).map (fun r => r.read.cols)

/-- `SELECT K, V, T FROM KV ORDER BY K`. -/
def IterateAllStmt (tbl : CellTable) : List (List String) :=
  (cellOrderAsc tbl).map (fun r => r.read.cols)

/-- The rows of `WHERE K >= $1 ORDER BY K ASC LIMIT $2`. -/
def rowsASC (k : Param) (limit : Int) (tbl : CellTable) : CellTable :=
  limitSqlite limit (cellOrderAsc (tbl.filter (fun r => cellLE (affinity k) r.K)))

/-- The rows of `WHERE K <= $1 ORDER BY K DESC LIMIT $2`. -/
def rowsDSC (k : Param) (limit : Int) (tbl : CellTable) : CellTable :=
  limitSqlite limit (cellOrderDesc (tbl.filter (fun r => cellLE r.K (affinity k))))

/-- `SELECT K, V, T FROM KV WHERE K >= $1 ORDER BY K ASC LIMIT $2`. -/
def IterateByPrefixASC (k : Param) (limit : Int) (tbl : CellTable) : List (List String) :=
  (rowsASC k limit tbl).map (fun r => r.read.cols)

/-- `SELECT K, V, T FROM KV WHERE K <= $1 ORDER BY K DESC LIMIT $2`. -/
def IterateByPrefixDSC (k : Param) (limit : Int) (tbl : CellTable) : List (List String) :=
  (rowsDSC k limit tbl).map (fun r => r.read.cols)

/-- `SELECT K, V, T FROM KV ORDER BY K LIMIT ?`. -/
def IterateDSCStmt (limit : Int) (tbl : CellTable) : List (List String) :=
  (limitSqlite limit (cellOrderAsc tbl)).map (fun r => r.read.cols)

/-- `DELETE FROM KV WHERE K=?`. -/
def DeleteStmt (k : Param) (tbl : CellTable) : CellTable :=
  tbl.filter (fun r => r.K ≠ affinity k)

/-- `DELETE FROM KV WHERE 1`. -/
def DeleteAllStmt (_tbl : CellTable) : CellTable := []

/-- `DELETE FROM KV WHERE T=$1`. -/
def DeleteStmtTag (t : Param) (tbl : CellTable) : CellTable :=
  tbl.filter (fun r => r.T ≠ affinity t)

/-- `SELECT COUNT(K), MIN(K), MAX(K) FROM KV`: an aggregate without `GROUP BY`
always returns exactly one row. -/
def CountAllStmt (tbl : CellTable) : List CountRow :=
  [⟨(tbl.length : Int), (minCell (tbl.map CellRow.K)).map Cell.readBack,
    (maxCell (tbl.map CellRow.K)).map Cell.readBack⟩]

end Sqlite

/-! ## The prepared statements of `NewStorePostgresWithValueType` -/

/-- The smallest key of a list of text keys, `none` for the empty list. -/
def minKey : List String → Option String
  | [] => none
  | k :: ks =>
    match minKey ks with
    | none => some k
    | some m => if keyLE k m then some k else some m

/-- The largest key of a list of text keys, `none` for the empty list. -/
def maxKey : List String → Option String
  | [] => none
  | k :: ks =>
    match maxKey ks with
    | none => some k
    | some m => if keyLE m k then some k else some m

namespace Postgres

/-- `INSERT INTO kv (K, V, T) VALUES($1, $2, $3) ON CONFLICT (K) DO UPDATE SET V=$2, T=$3`:
a row with the key is updated in place, otherwise the row is added. -/
def InsertStmt (k v t : String) (tbl : Table) : Table :=
  if tbl.any (fun r => r.K = k) then
    tbl.map (fun r => if r.K = k then ⟨k, v, t⟩ else r)
  else tbl ++ [⟨k, v, t⟩]

/-- `SELECT K, V, T FROM kv WHERE K=$1`. -/
def GetStmt (k : String) (tbl : Table) : List (List String) :=
  (tbl.filter (fun r => r.K = k)).map Row.cols

/-- `SELECT K, V, T FROM kv ORDER BY K`. -/
def IterateAllStmt (tbl : Table) : List (List String) :=
  (orderByKAsc tbl).map Row.cols

/-- `SELECT K, V, T FROM kv WHERE K >= $1 ORDER BY K ASC LIMIT $2`. -/
def IterateByPrefixASCEQ (k : String) (limit : Int) (tbl : Table) :
    Except SqlError (List (List String)) :=
  (limitPostgres limit (orderByKAsc (tbl.filter (fun r => keyLE k r.K)))).map
    (fun rows => rows.map Row.cols)

/-- `SELECT K, V, T FROM kv WHERE K <= $1 ORDER BY K DESC LIMIT $2`. -/
def IterateByPrefixDSCEQ (k : String) (limit : Int) (tbl : Table) :
    Except SqlError (List (List String)) :=
  (limitPostgres limit (orderByKDesc (tbl.filter (fun r => keyLE r.K k)))).map
    (fun rows => rows.map Row.cols)

/-- `DELETE FROM kv WHERE K=$1`. -/
def DeleteStmt (k : String) (tbl : Table) : Table :=
  tbl.filter (fun r => r.K ≠ k)

/-- `DELETE FROM kv WHERE T=$1`. -/
def DeleteStmtTag (t : String) (tbl : Table) : Table :=
  tbl.filter (fun r => r.T ≠ t)

/-- `SELECT COUNT(K), MIN(K), MAX(K) FROM kv`. -/
def CountAllStmt (tbl : Table) : List CountRow :=
  [⟨(tbl.length : Int), minKey (tbl.map Row.K), maxKey (tbl.map Row.K)⟩]

end Postgres

/-! ## `database/sql` -/

/-- `Stmt.Exec`: the statement runs unless the backend fails, and a failed
statement changes nothing. -/
def Exec {τ : Type} (stmt : τ → τ) (fault : Option SqlError) (tbl : τ) :
    Option SqlError × τ :=
  match fault with
  | some e => (some e, tbl)
  | none => (none, stmt tbl)

/-- `Stmt.Query`: the result set, or the error of the backend. -/
def Query {τ ρ : Type} (stmt : τ → ρ) (fault : Option SqlError) (tbl : τ) :
    Except SqlError ρ :=
  match fault with
  | some e => .error e
  | none => .ok (stmt tbl)

/-- `res.Scan(&a, &b, &c)` into three `string` destinations: fails unless the
row has exactly three columns. -/
def Scan3 : List String → Except SqlError (String × String × String)
  | [a, b, c] => .ok (a, b, c)
  | cols => .error (.scanArity cols.length 3)

/-- `res.Scan(&k, &v)` into two `string` destinations: fails unless the row
has exactly two columns. -/
def Scan2 : List String → Except SqlError (String × String)
  | [a, b] => .ok (a, b)
  | cols => .error (.scanArity cols.length 2)

/-- `res.Scan(&count, &min, &max)` into `int64, string, string`: a NULL cannot
be converted to a `string`. -/
def ScanCount (r : CountRow) : Except SqlError (Int × String × String) :=
  match r.min, r.max with
  | some mn, some mx => .ok (r.count, mn, mx)
  | _, _ => .error .scanNull

/-- `gotils.CheckNotFatal(err)`: logs a non-nil error and goes on. -/
def CheckNotFatal (err : Option SqlError) : Option SqlError := err

/-- How a call ends: it returns a value, or `log.Fatalln` ends the process. -/
inductive Outcome (α : Type) where
  /-- the call returned -/
  | returned (a : α)
  /-- the process was ended with this message -/
  | fatal (msg : String)
deriving DecidableEq

/-- What an iteration leaves behind: the state of the caller after the last
callback, the argument triples of the callback invocations in order, and the
returned `error` (always `none` for the iterations that return nothing). -/
structure Iter (σ : Type) where
  state : σ
  calls : List (String × String × String)
  err : Option SqlError

/-- The loop of the four bounded iterations over the rows of the result set:
`for res.Next() && false == stop { err = res.Scan(&k, &v, &t); if err != nil { break }; block(&k, &t, &v, &stop) }`. -/
def prefixLoop {σ : Type} (block : σ → String → String → String → σ × Bool) :
    List (List String) → σ → Iter σ
  | [], st => ⟨st, [], none⟩
  | cols :: rest, st =>
    match Scan3 cols with
    | .error e => ⟨st, [], CheckNotFatal (some e)⟩
    | .ok (k, v, t) =>
      let r := block st k t v
      if r.2 then ⟨r.1, [(k, t, v)], none⟩
      else
        let tail := prefixLoop block rest r.1
        ⟨tail.state, (k, t, v) :: tail.calls, tail.err⟩

/-! ## `StoreSqlite` -/

/-- A `*sql.Tx`: the handle of one backend transaction, and the rows written
through it that are not committed yet, oldest first. -/
structure Tx where
  id : Nat
  pending : List CellRow
deriving DecidableEq

/-- The `*sql.DB` of a store: the committed contents of `KV`, and how many
transactions have been begun on it so far (the next handle). -/
structure Db where
  table : CellTable
  begun : Nat
deriving DecidableEq

/-- The fields of `StoreSqlite` that change: the database behind `Db` and
`currentTransaction` (`none` is Go's `nil`).  The prepared statements are the
functions of `Sqlite`. -/
structure StoreSqlite where
  Db : Db
  currentTransaction : Option Tx
deriving DecidableEq

/-- `Db.Begin()`: a new handle with nothing pending and a nil error, or the
nil handle and the error. -/
def Db.Begin (db : Db) (fault : Option SqlError) : Except SqlError Tx × Db :=
  match fault with
  | some e => (.error e, db)
  | none => (.ok ⟨db.begun, []⟩, { db with begun := db.begun + 1 })

/-- `transaction.Commit()`: the pending rows are inserted, in order; when the
commit fails the driver rolls back and they are dropped. -/
def Tx.Commit (tx : Tx) (db : Db) (fault : Option SqlError) : Option SqlError × Db :=
  match fault with
  | some e => (some e, db)
  | none => (none, { db with table := tx.pending.foldl (fun t r => Sqlite.insertRow r t) db.table })

namespace StoreSqlite

/-- The rows written through the current transaction and not committed. -/
def pending (s : StoreSqlite) : List CellRow :=
  match s.currentTransaction with
  | some tx => tx.pending
  | none => []

/-- Run a table-changing statement of the store itself (`s.XStmt.Exec`), on a
connection of the pool: it fails while a transaction holds the write lock. -/
def exec (s : StoreSqlite) (stmt : CellTable → CellTable) (fault : Option SqlError) :
    Option SqlError × StoreSqlite :=
  if s.pending ≠ [] then (some .locked, s)
  else
    let r := Exec stmt fault s.Db.table
    (r.1, { s with Db := { s.Db with table := r.2 } })

/-- Run the insert of a row through the transaction
(`s.currentTransaction.Stmt(s.InsertStmt).Exec`): the row is pending. -/
def txExec (s : StoreSqlite) (tx : Tx) (row : CellRow) (fault : Option SqlError) :
    Option SqlError × StoreSqlite :=
  match fault with
  | some e => (some e, s)
  | none => (none, { s with currentTransaction := some { tx with pending := tx.pending ++ [row] } })

/-- `AddValueKVT add (k,v,t) to the store`. -/
def AddValueKVT (s : StoreSqlite) (k v t : Param) (fault : Option SqlError) :
    Option SqlError × StoreSqlite :=
  match s.currentTransaction with
  | some tx =>
    -- stmt := s.currentTransaction.Stmt(s.InsertStmt); _, err := stmt.Exec(k, v, "")
    let r := s.txExec tx (Sqlite.insertedRow k v Param.empty) fault
    (CheckNotFatal r.1, r.2)
  | none =>
    -- _, err := s.InsertStmt.Exec(k, v, t)
    let r := s.exec (Sqlite.InsertStmt k v t) fault
    (CheckNotFatal r.1, r.2)

/-- `AddValueKV add (k,v) to the store`. -/
def AddValueKV (s : StoreSqlite) (k v : Param) (fault : Option SqlError) :
    Option SqlError × StoreSqlite :=
  match s.currentTransaction with
  | some tx =>
    let r := s.txExec tx (Sqlite.insertedRow k v Param.empty) fault
    (CheckNotFatal r.1, r.2)
  | none =>
    let r := s.exec (Sqlite.InsertStmt k v Param.empty) fault
    (CheckNotFatal r.1, r.2)

/-- `DeleteValue delete k from the store`. -/
def DeleteValue (s : StoreSqlite) (k : Param) (fault : Option SqlError) :
    Option SqlError × StoreSqlite :=
  let r := s.exec (Sqlite.DeleteStmt k) fault
  (CheckNotFatal r.1, r.2)

/-- `DeleteAllWithTag delete all value with tag t from the store`. -/
def DeleteAllWithTag (s : StoreSqlite) (t : Param) (fault : Option SqlError) :
    Option SqlError × StoreSqlite :=
  let r := s.exec (Sqlite.DeleteStmtTag t) fault
  (CheckNotFatal r.1, r.2)

/-- `DeleteAll delete all the data in the store`. -/
def DeleteAll (s : StoreSqlite) (fault : Option SqlError) :
    Option SqlError × StoreSqlite :=
  let r := s.exec Sqlite.DeleteAllStmt fault
  (CheckNotFatal r.1, r.2)

/-- `GetValue get the value for the given k`: `none` is the `nil` pointer. -/
def GetValue (s : StoreSqlite) (k : Param) (fault : Option SqlError) : Option String :=
  match Query (Sqlite.GetStmt k) fault s.Db.table with
  | .error _ => none
  | .ok res =>
    -- for res.Next() { ...; return &v }; return nil
    match res with
    | [] => none
    | cols :: _ =>
      match Scan3 cols with
      | .error _ => none
      | .ok (_, v, _) => some v

/-- `CountAll count number of items in the store`. -/
def CountAll (s : StoreSqlite) (fault : Option SqlError) : Int × String × String :=
  match Query Sqlite.CountAllStmt fault s.Db.table with
  | .error _ => (-1, "", "")
  | .ok res =>
    match res with
    | [] => (-1, "", "")
    | r :: _ =>
      match ScanCount r with
      | .error _ => (0, "", "")
      | .ok (count, min, max) => (count, min, max)

/-- `Transaction run the given block under a sqlite transaction`.  The block
is a closure over the store and the state `σ` of its caller; it returns, or it
ends the process.  The result is how the call ended (with the returned
`error`), and the store and the caller state at that moment. -/
def Transaction {σ : Type} (s : StoreSqlite)
    (block : StoreSqlite → σ → Outcome Unit × StoreSqlite × σ)
    (st : σ) (beginFault commitFault : Option SqlError) :
    Outcome (Option SqlError) × StoreSqlite × σ :=
  match s.currentTransaction with
  | some _ => (.fatal "NO CONCURRENT TRANSACTIONS", s, st)
  | none =>
    -- transaction, err := s.Db.Begin(); s.currentTransaction = transaction
    match s.Db.Begin beginFault with
    | (.error err, db) =>
      -- if err != nil { return err }
      (.returned (CheckNotFatal (some err)), { Db := db, currentTransaction := none }, st)
    | (.ok transaction, db) =>
      match block { Db := db, currentTransaction := some transaction } st with
      | (.fatal msg, s2, st2) => (.fatal msg, s2, st2)
      | (.returned _, s2, st2) =>
        -- err = transaction.Commit(): the transaction with what the block wrote through it
        let c := Tx.Commit ⟨transaction.id, s2.pending⟩ s2.Db commitFault
        -- s.currentTransaction = nil
        (.returned (CheckNotFatal c.1), { Db := c.2, currentTransaction := none }, st2)

/-- `IterateByKeyPrefixASC traverse all the items by keyPrefix in ASC order`. -/
def IterateByKeyPrefixASC {σ : Type} (s : StoreSqlite) (keyPfx : Param) (limit : Int)
    (block : σ → String → String → String → σ × Bool) (st : σ)
    (fault : Option SqlError) : Iter σ :=
  match Query (Sqlite.IterateByPrefixASC keyPfx limit) fault s.Db.table with
  | .error e => ⟨st, [], CheckNotFatal (some e)⟩
  | .ok res => prefixLoop block res st

/-- `IterateByKeyPrefixDESC traverse items by key prefix in DESC order`. -/
def IterateByKeyPrefixDESC {σ : Type} (s : StoreSqlite) (keyPfx : Param) (limit : Int)
    (block : σ → String → String → String → σ × Bool) (st : σ)
    (fault : Option SqlError) : Iter σ :=
  match Query (Sqlite.IterateByPrefixDSC keyPfx limit) fault s.Db.table with
  | .error e => ⟨st, [], CheckNotFatal (some e)⟩
  | .ok res => prefixLoop block res st

/-- The loop of `IterateValuesAsJSON`:
`for res.Next() { err = res.Scan(&k, &v); if err != nil { continue }; block(k, v, &stop); if stop { break } }`.
The result is the state of the caller and the argument pairs of the
invocations. -/
def valuesLoop {σ : Type} (block : σ → String → String → σ × Bool) :
    List (List String) → σ → σ × List (String × String)
  | [], st => (st, [])
  | cols :: rest, st =>
    match Scan2 cols with
    | .error _ => valuesLoop block rest st
    | .ok (k, v) =>
      let r := block st k v
      if r.2 then (r.1, [(k, v)])
      else
        let tail := valuesLoop block rest r.1
        (tail.1, (k, v) :: tail.2)

/-- `IterateValuesAsJSON traverse all the values in the store by key`. -/
def IterateValuesAsJSON {σ : Type} (s : StoreSqlite) (block : σ → String → String → σ × Bool)
    (numItems : Int) (st : σ) (fault : Option SqlError) : σ × List (String × String) :=
  match Query (Sqlite.IterateDSCStmt numItems) fault s.Db.table with
  | .error _ => (st, [])
  | .ok res => valuesLoop block res st

/-- The loop of `IterateAll`.  `Unmarshal v st` is `json.Unmarshal([]byte(v), &o)`:
the target `o` is part of the state of the caller, and the flag tells whether
the error was nil.  A row that fails to scan or to decode is passed over
(`continue`); the callback gets `(k, t, v, &stop)`. -/
def allLoop {σ : Type} (Unmarshal : String → σ → σ × Bool)
    (block : σ → String → String → String → σ × Bool) :
    List (List String) → σ → Iter σ
  | [], st => ⟨st, [], none⟩
  | cols :: rest, st =>
    match Scan3 cols with
    | .error _ => allLoop Unmarshal block rest st
    | .ok (k, v, t) =>
      let d := Unmarshal v st
      if d.2 then
        let r := block d.1 k t v
        if r.2 then ⟨r.1, [(k, t, v)], none⟩
        else
          let tail := allLoop Unmarshal block rest r.1
          ⟨tail.state, (k, t, v) :: tail.calls, none⟩
      else allLoop Unmarshal block rest d.1

/-- `IterateAll traverse all the items in the store`. -/
def IterateAll {σ : Type} (s : StoreSqlite) (Unmarshal : String → σ → σ × Bool)
    (block : σ → String → String → String → σ × Bool) (st : σ)
    (fault : Option SqlError) : Iter σ :=
  match Query Sqlite.IterateAllStmt fault s.Db.table with
  | .error _ => ⟨st, [], none⟩
  | .ok res => allLoop Unmarshal block res st

end StoreSqlite

/-! ## `StorePostgres` -/

/-- The database behind a `StorePostgres`: the contents of the table `kv_<name>`. -/
structure StorePostgres where
  table : Table
deriving DecidableEq

namespace StorePostgres

/-- `AddValueKVT add a (K,V,T) entry to the store`. -/
def AddValueKVT (s : StorePostgres) (k v t : String) (fault : Option SqlError) :
    Option SqlError × StorePostgres :=
  let r := Exec (Postgres.InsertStmt k v t) fault s.table
  (CheckNotFatal r.1, ⟨r.2⟩)

/-- `DeleteValue deletes the given k from the store`. -/
def DeleteValue (s : StorePostgres) (k : String) (fault : Option SqlError) :
    Option SqlError × StorePostgres :=
  let r := Exec (Postgres.DeleteStmt k) fault s.table
  (CheckNotFatal r.1, ⟨r.2⟩)

/-- `DeleteAllWithTag delete all entries from the store with with the given tag t`. -/
def DeleteAllWithTag (s : StorePostgres) (t : String) (fault : Option SqlError) :
    Option SqlError × StorePostgres :=
  let r := Exec (Postgres.DeleteStmtTag t) fault s.table
  (CheckNotFatal r.1, ⟨r.2⟩)

/-- `GetValue get the value for key k`. -/
def GetValue (s : StorePostgres) (k : String) (fault : Option SqlError) : Option String :=
  match Query (Postgres.GetStmt k) fault s.table with
  | .error _ => none
  | .ok res =>
    match res with
    | [] => none
    | cols :: _ =>
      match Scan3 cols with
      | .error _ => none
      | .ok (_, v, _) => some v

/-- `CountAll will compute the count, min, max for the store`. -/
def CountAll (s : StorePostgres) (fault : Option SqlError) : Int × String × String :=
  match Query Postgres.CountAllStmt fault s.table with
  | .error _ => (-1, "", "")
  | .ok res =>
    match res with
    | [] => (-1, "", "")
    | r :: _ =>
      match ScanCount r with
      | .error _ => (0, "", "")
      | .ok (count, min, max) => (count, min, max)

/-- A `Query` whose statement can itself be rejected by the backend. -/
def queryChecked {ρ : Type} (stmt : Table → Except SqlError ρ) (fault : Option SqlError)
    (tbl : Table) : Except SqlError ρ :=
  match Query stmt fault tbl with
  | .error e => .error e
  | .ok r => r

/-- `IterateByKeyPrefixASCEQ traverse the stored items by key prefix (ascending)`:
the loop is the one of the SQLite store, line for line. -/
def IterateByKeyPrefixASCEQ {σ : Type} (s : StorePostgres) (keyPfx : String) (limit : Int)
    (block : σ → String → String → String → σ × Bool) (st : σ)
    (fault : Option SqlError) : Iter σ :=
  match queryChecked (Postgres.IterateByPrefixASCEQ keyPfx limit) fault s.table with
  | .error e => ⟨st, [], CheckNotFatal (some e)⟩
  | .ok res => prefixLoop block res st

/-- `IterateByKeyPrefixDESCEQ traverse the stored items by key prefix (descending)`. -/
def IterateByKeyPrefixDESCEQ {σ : Type} (s : StorePostgres) (keyPfx : String) (limit : Int)
    (block : σ → String → String → String → σ × Bool) (st : σ)
    (fault : Option SqlError) : Iter σ :=
  match queryChecked (Postgres.IterateByPrefixDSCEQ keyPfx limit) fault s.table with
  | .error e => ⟨st, [], CheckNotFatal (some e)⟩
  | .ok res => prefixLoop block res st

/-- The loop of `StorePostgres.IterateAll`: as in the SQLite store, but the
callback gets `(k, v, t, &stop)`. -/
def allLoop {σ : Type} (Unmarshal : String → σ → σ × Bool)
    (block : σ → String → String → String → σ × Bool) :
    List (List String) → σ → Iter σ
  | [], st => ⟨st, [], none⟩
  | cols :: rest, st =>
    match Scan3 cols with
    | .error _ => allLoop Unmarshal block rest st
    | .ok (k, v, t) =>
      let d := Unmarshal v st
      if d.2 then
        let r := block d.1 k v t
        if r.2 then ⟨r.1, [(k, v, t)], none⟩
        else
          let tail := allLoop Unmarshal block rest r.1
          ⟨tail.state, (k, v, t) :: tail.calls, none⟩
      else allLoop Unmarshal block rest d.1

/-- `IterateAll traverse all the stored items`. -/
def IterateAll {σ : Type} (s : StorePostgres) (Unmarshal : String → σ → σ × Bool)
    (block : σ → String → String → String → σ × Bool) (st : σ)
    (fault : Option SqlError) : Iter σ :=
  match Query Postgres.IterateAllStmt fault s.table with
  | .error _ => ⟨st, [], none⟩
  | .ok res => allLoop Unmarshal block res st

end StorePostgres

/-! ## Vocabulary of the specification -/

/-- The arguments `(key, tag, value)` a callback is to receive for a row. -/
def Row.ktv (r : Row) : String × String × String := (r.K, r.T, r.V)

/-- The arguments a callback receives when it is called with `(k, v, t)`. -/
def Row.kvt (r : Row) : String × String × String := (r.K, r.V, r.T)

/-- `sorted` is the list of all entries of `tbl`, sorted by `Key` in ascending
lexicographic order. -/
def AscendingAll (tbl : Table) (sorted : List Row) : Prop :=
  sorted.Perm tbl ∧ sorted.Sorted (fun a b => a.K ≤ b.K)

/-- `res` is `(n, min, max)`: the number of entries of `tbl` and the
lexicographically smallest and largest `Key` present. -/
def IsCountMinMax (tbl : Table) (res : Int × String × String) : Prop :=
  res.1 = tbl.length ∧ (∃ r ∈ tbl, r.K = res.2.1) ∧ (∃ r ∈ tbl, r.K = res.2.2) ∧
    ∀ r ∈ tbl, res.2.1 ≤ r.K ∧ r.K ≤ res.2.2

/-- `sorted` is the list of all entries of `tbl` with `Key >= startKey`, sorted
by `Key` in ascending lexicographic order. -/
def AscendingFrom (tbl : Table) (startKey : String) (sorted : List Row) : Prop :=
  sorted.Perm (tbl.filter (fun r => startKey ≤ r.K)) ∧ sorted.Sorted (fun a b => a.K ≤ b.K)

/-- `sorted` is the list of all entries of `tbl` with `Key <= startKey`, sorted
by `Key` in descending lexicographic order. -/
def DescendingFrom (tbl : Table) (startKey : String) (sorted : List Row) : Prop :=
  sorted.Perm (tbl.filter (fun r => r.K ≤ startKey)) ∧ sorted.Sorted (fun a b => b.K ≤ a.K)

/-- The state of the caller after `block` was invoked on `rows`, in order. -/
def deliver {σ : Type} (block : σ → String → String → String → σ × Bool)
    (rows : List Row) (st : σ) : σ :=
  rows.foldl (fun a r => (block a r.K r.T r.V).1) st

/-- The iteration `it` over the result `rows` delivered exactly the rows up to
and including the first one on which `block` set the stop flag: the delivered
rows `pre` are an initial segment of `rows`; `block` left the flag false on
every delivered row but the last; and when rows were left undelivered, it set
the flag on the last delivered one. -/
def DeliveredUntilStop {σ : Type} (block : σ → String → String → String → σ × Bool)
    (rows : List Row) (st : σ) (it : Iter σ) : Prop :=
  ∃ pre post, rows = pre ++ post ∧
    it.calls = pre.map Row.ktv ∧
    it.state = deliver block pre st ∧
    (∀ p r q, pre = p ++ r :: q → q ≠ [] →
      (block (deliver block p st) r.K r.T r.V).2 = false) ∧
    (post ≠ [] → ∃ p r, pre = p ++ [r] ∧
      (block (deliver block p st) r.K r.T r.V).2 = true)

/-- A value as the SQLite relation holds it and gives it back unchanged: a
text that is no numeric literal, or an integer written in decimal without
sign, leading zeros or white space (with `-` for a negative one). -/
def Verbatim (v : Param) : Prop := (affinity v).readBack = v.str

instance (v : Param) : Decidable (Verbatim v) := by
  unfold Verbatim; infer_instance

/-! ## Sample stores

The data of `TestFarmHasCow` and `TestPQ`, and stores whose keys or tags are
integer literals, used to run the code on concrete inputs. -/

/-- A freshly created SQLite store: no rows, no transaction. -/
def emptySqlite : StoreSqlite := ⟨⟨[], 0⟩, none⟩

/-- A freshly created Postgres store. -/
def emptyPostgres : StorePostgres := ⟨[]⟩

/-- A sequence of `AddValueKVT(k, v, t)` on a healthy SQLite store. -/
def sqlitePuts (s : StoreSqlite) (puts : List (Param × Param × Param)) : StoreSqlite :=
  puts.foldl (fun s p => (s.AddValueKVT p.1 p.2.1 p.2.2 none).2) s

/-- The same sequence of `AddValueKVT(k, v, t)` on a healthy Postgres store. -/
def postgresPuts (s : StorePostgres) (puts : List (Param × Param × Param)) : StorePostgres :=
  puts.foldl (fun s p => (s.AddValueKVT p.1.str p.2.1.str p.2.2.str none).2) s

/-- The writes of the two tests: `k -> 1, 2, 3`, `kk -> 33`, `kkk -> 333`, all
tagged `t`. -/
def farmPuts : List (Param × Param × Param) :=
  [(⟨"k", by decide⟩, ⟨"1", by decide⟩, ⟨"t", by decide⟩),
   (⟨"k", by decide⟩, ⟨"2", by decide⟩, ⟨"t", by decide⟩),
   (⟨"k", by decide⟩, ⟨"3", by decide⟩, ⟨"t", by decide⟩),
   (⟨"kk", by decide⟩, ⟨"33", by decide⟩, ⟨"t", by decide⟩),
   (⟨"kkk", by decide⟩, ⟨"333", by decide⟩, ⟨"t", by decide⟩)]

/-- The SQLite store of `TestFarmHasCow` after its writes. -/
def farmSqlite : StoreSqlite := sqlitePuts emptySqlite farmPuts

/-- The Postgres store of `TestPQ` after its writes. -/
def farmPostgres : StorePostgres := postgresPuts emptyPostgres farmPuts

/-- Entries under the keys `10`, `9` and `a`, with the values `1`, `2`, `3`. -/
def mixedKeyPuts : List (Param × Param × Param) :=
  [(⟨"10", by decide⟩, ⟨"1", by decide⟩, ⟨"t", by decide⟩),
   (⟨"9", by decide⟩, ⟨"2", by decide⟩, ⟨"t", by decide⟩),
   (⟨"a", by decide⟩, ⟨"3", by decide⟩, ⟨"t", by decide⟩)]

/-- Entries under the keys `10` and `9`, with the values `1` and `2`. -/
def numberKeyPuts : List (Param × Param × Param) :=
  [(⟨"10", by decide⟩, ⟨"1", by decide⟩, ⟨"t", by decide⟩),
   (⟨"9", by decide⟩, ⟨"2", by decide⟩, ⟨"t", by decide⟩)]

/-- Entry `a` tagged `1` and entry `b` tagged `t2`. -/
def tagOnePuts : List (Param × Param × Param) :=
  [(⟨"a", by decide⟩, ⟨"1", by decide⟩, ⟨"1", by decide⟩),
   (⟨"b", by decide⟩, ⟨"2", by decide⟩, ⟨"t2", by decide⟩)]

/-- Entry `a` written with the tag `01` and entry `b` tagged `t2`. -/
def tagZeroOnePuts : List (Param × Param × Param) :=
  [(⟨"a", by decide⟩, ⟨"1", by decide⟩, ⟨"01", by decide⟩),
   (⟨"b", by decide⟩, ⟨"2", by decide⟩, ⟨"t2", by decide⟩)]

/-- Entries under the keys `7` and `a`. -/
def sevenPuts : List (Param × Param × Param) :=
  [(⟨"7", by decide⟩, ⟨"1", by decide⟩, ⟨"t", by decide⟩),
   (⟨"a", by decide⟩, ⟨"2", by decide⟩, ⟨"t", by decide⟩)]

/-- One entry `(a, 1, t)`, whose tag differs from its value. -/
def oneEntryPuts : List (Param × Param × Param) :=
  [(⟨"a", by decide⟩, ⟨"1", by decide⟩, ⟨"t", by decide⟩)]

/-- A callback that appends `*k` and `*v` to a list, as the callbacks of the
tests do, and leaves `*stop` alone. -/
def collect (list : List String) (k _t v : String) : List String × Bool :=
  (list ++ [k, v], false)

/-- The callback of the last part of `TestPQ`: as `collect`, then `*stop = true`. -/
def collectAndStop (list : List String) (k _t v : String) : List String × Bool :=
  (list ++ [k, v], true)

/-- A callback of `IterateValuesAsJSON` that appends `k` and `v` to a list and
leaves `*stop` alone. -/
def collectPair (list : List String) (k v : String) : List String × Bool :=
  (list ++ [k, v], false)

/-- A value codec whose target is a number: a payload decodes when it is made
of digits. The target itself is not kept. -/
def unmarshalNumber (v : String) (st : List String) : List String × Bool :=
  (st, v.toList.all Char.isDigit)

/-- A transaction body that makes one call, `AddValueKVT("k", "v", "t1")`, and
keeps the returned errors. -/
def putTagged (s : StoreSqlite) (errs : List (Option SqlError)) :
    Outcome Unit × StoreSqlite × List (Option SqlError) :=
  (.returned (),
    (s.AddValueKVT ⟨"k", by decide⟩ ⟨"v", by decide⟩ ⟨"t1", by decide⟩ none).2,
    errs ++ [(s.AddValueKVT ⟨"k", by decide⟩ ⟨"v", by decide⟩ ⟨"t1", by decide⟩ none).1])

/-- A transaction body that writes `k` three times, `1`, `2`, `3`, reads `k`
back with `GetValue`, and keeps the returned errors and what it read. -/
def putThriceAndGet (s : StoreSqlite) (seen : List (Option SqlError) × Option String) :
    Outcome Unit × StoreSqlite × (List (Option SqlError) × Option String) :=
  let a := s.AddValueKVT ⟨"k", by decide⟩ ⟨"1", by decide⟩ ⟨"t", by decide⟩ none
  let b := a.2.AddValueKVT ⟨"k", by decide⟩ ⟨"2", by decide⟩ ⟨"t", by decide⟩ none
  let c := b.2.AddValueKVT ⟨"k", by decide⟩ ⟨"3", by decide⟩ ⟨"t", by decide⟩ none
  (.returned (), c.2, (seen.1 ++ [a.1, b.1, c.1], c.2.GetValue ⟨"k", by decide⟩ none))

/-- A transaction body that makes one call, `AddValueKV("k", "v")`, and counts
its own invocations. -/
def putAndCount (s : StoreSqlite) (n : Nat) : Outcome Unit × StoreSqlite × Nat :=
  (.returned (), (s.AddValueKV ⟨"k", by decide⟩ ⟨"v", by decide⟩ none).2, n + 1)

/-- A transaction body that counts its invocation and then calls `Transaction`
itself. -/
def reenter (s : StoreSqlite) (n : Nat) : Outcome Unit × StoreSqlite × Nat :=
  match s.Transaction putAndCount (n + 1) none none with
  | (.returned _, s2, n2) => (.returned (), s2, n2)
  | (.fatal msg, s2, n2) => (.fatal msg, s2, n2)

/-! ## Lemmas on the SQLite statements -/

theorem keyLE_iff_le (a b : String) : keyLE a b = true ↔ a ≤ b := by
  simp [keyLE, String.le_iff_toList_le]

theorem Scan3_cols (r : Row) : Scan3 r.cols = .ok (r.K, r.V, r.T) := rfl

theorem getStmt_insertStmt (k v t : Param) (tbl : CellTable) :
    Sqlite.GetStmt k (Sqlite.InsertStmt k v t tbl)
      = [[(affinity k).readBack, (affinity v).readBack, (affinity t).readBack]] := by
  simp [Sqlite.GetStmt, Sqlite.InsertStmt, Sqlite.insertRow, Sqlite.insertedRow,
    List.filter_append, List.filter_filter, Row.cols, CellRow.read]

theorem StoreSqlite.AddValueKVT_idle (s : StoreSqlite) (h : s.currentTransaction = none)
    (k v t : Param) :
    s.AddValueKVT k v t none
      = (none, ⟨⟨Sqlite.InsertStmt k v t s.Db.table, s.Db.begun⟩, none⟩) := by
  cases s with
  | mk db tx =>
    simp only at h
    subst h
    simp [AddValueKVT, exec, pending, Exec, CheckNotFatal]

theorem StoreSqlite.AddValueKV_idle (s : StoreSqlite) (h : s.currentTransaction = none)
    (k v : Param) :
    s.AddValueKV k v none
      = (none, ⟨⟨Sqlite.InsertStmt k v Param.empty s.Db.table, s.Db.begun⟩, none⟩) := by
  cases s with
  | mk db tx =>
    simp only at h
    subst h
    simp [AddValueKV, exec, pending, Exec, CheckNotFatal]

theorem StoreSqlite.GetValue_of_insertStmt (s : StoreSqlite) (k v t : Param)
    (tbl : CellTable) (h : s.Db.table = Sqlite.InsertStmt k v t tbl) :
    s.GetValue k none = some (affinity v).readBack := by
  simp [GetValue, Query, h, getStmt_insertStmt, Scan3]

/-! ## Last write wins -/

/-- C1 as it is stated fails on the code.  In a transaction, three
`AddValueKVT` on `k` return a nil error and `GetValue("k")` then returns nil:
the writes are pending on the connection of the transaction and the read runs
on another one.  On an idle store, after `AddValueKVT("k", "007", "t")`
returned nil, `GetValue("k")` returns `7`, not `007`. -/
theorem last_write_wins_counterexample :
    emptySqlite.Transaction putThriceAndGet ([], none) none none
        = (.returned none, ⟨⟨[⟨.text "k", .int 3, .text ""⟩], 1⟩, none⟩,
            ([none, none, none], none))
    ∧ (farmSqlite.AddValueKVT ⟨"k", by decide⟩ ⟨"007", by decide⟩ ⟨"t", by decide⟩ none).1
        = none
    ∧ (farmSqlite.AddValueKVT ⟨"k", by decide⟩ ⟨"007", by decide⟩
        ⟨"t", by decide⟩ none).2.GetValue ⟨"k", by decide⟩ none = some "7"
    ∧ (farmSqlite.AddValueKVT ⟨"k", by decide⟩ ⟨"007", by decide⟩
        ⟨"t", by decide⟩ none).2.GetValue ⟨"k", by decide⟩ none ≠ some "007" := by
  decide

/-- C1, amended.  Last-write-wins on an idle store.  For every SQLite store
with no transaction active, every key `k` and all values and tags, on a
healthy backend the three calls `AddValueKVT(k, v1, _)`, `AddValueKVT(k, v2, _)`,
`AddValueKVT(k, v3, _)` made in sequence all return a nil error, and, `v3`
being a value the relation holds verbatim, `GetValue(k)` then returns a
non-nil pointer to `v3`.  More generally, on an idle store, after any
`AddValueKVT(k, v, _)` or `AddValueKV(k, v)` with `v` held verbatim,
`GetValue(k)` returns `v`. -/
theorem last_write_wins_idle (s : StoreSqlite) (hidle : s.currentTransaction = none)
    (k v1 v2 v3 t1 t2 t3 : Param) (hv : Verbatim v3) :
    (s.AddValueKVT k v1 t1 none).1 = none
    ∧ ((s.AddValueKVT k v1 t1 none).2.AddValueKVT k v2 t2 none).1 = none
    ∧ (((s.AddValueKVT k v1 t1 none).2.AddValueKVT k v2 t2 none).2.AddValueKVT
        k v3 t3 none).1 = none
    ∧ (((s.AddValueKVT k v1 t1 none).2.AddValueKVT k v2 t2 none).2.AddValueKVT
        k v3 t3 none).2.GetValue k none = some v3.str
    ∧ (∀ (s0 : StoreSqlite) (v t : Param), s0.currentTransaction = none → Verbatim v →
        (s0.AddValueKVT k v t none).1 = none ∧
        (s0.AddValueKVT k v t none).2.GetValue k none = some v.str)
    ∧ (∀ (s0 : StoreSqlite) (v : Param), s0.currentTransaction = none → Verbatim v →
        (s0.AddValueKV k v none).1 = none ∧
        (s0.AddValueKV k v none).2.GetValue k none = some v.str) := by
  have key : ∀ (s0 : StoreSqlite) (v t : Param), s0.currentTransaction = none →
      (s0.AddValueKVT k v t none).1 = none
      ∧ (s0.AddValueKVT k v t none).2.currentTransaction = none
      ∧ (s0.AddValueKVT k v t none).2.GetValue k none = some (affinity v).readBack := by
    intro s0 v t h0
    rw [StoreSqlite.AddValueKVT_idle s0 h0]
    exact ⟨rfl, rfl, StoreSqlite.GetValue_of_insertStmt _ k v t s0.Db.table rfl⟩
  have h1 := key s v1 t1 hidle
  have h2 := key _ v2 t2 h1.2.1
  have h3 := key _ v3 t3 h2.2.1
  refine ⟨h1.1, h2.1, h3.1, ?_, ?_, ?_⟩
  · rw [h3.2.2]
    exact congrArg some hv
  · intro s0 v t h0 hv0
    refine ⟨(key s0 v t h0).1, ?_⟩
    rw [(key s0 v t h0).2.2]
    exact congrArg some hv0
  · intro s0 v h0 hv0
    rw [StoreSqlite.AddValueKV_idle s0 h0]
    refine ⟨rfl, ?_⟩
    rw [StoreSqlite.GetValue_of_insertStmt _ k v Param.empty s0.Db.table rfl]
    exact congrArg some hv0

/-- The three writes of `TestFarmHasCow` on key `k`, then the read. -/
theorem last_write_wins_idle_witness :
    emptySqlite.currentTransaction = none
    ∧ Verbatim ⟨"3", by decide⟩
    ∧ (((emptySqlite.AddValueKVT ⟨"k", by decide⟩ ⟨"1", by decide⟩
          ⟨"t", by decide⟩ none).2.AddValueKVT ⟨"k", by decide⟩ ⟨"2", by decide⟩
          ⟨"t", by decide⟩ none).2.AddValueKVT ⟨"k", by decide⟩ ⟨"3", by decide⟩
          ⟨"t", by decide⟩ none).2.GetValue ⟨"k", by decide⟩ none = some "3" :=
  ⟨rfl, by decide,
    (last_write_wins_idle emptySqlite rfl ⟨"k", by decide⟩ ⟨"1", by decide⟩ ⟨"2", by decide⟩
      ⟨"3", by decide⟩ ⟨"t", by decide⟩ ⟨"t", by decide⟩ ⟨"t", by decide⟩
      (by decide)).2.2.2.1⟩

/-! ## One entry per key, with the value and the tag of the last write -/

/-- C2, evaluated where the code departs from it.  `AddValueKVT("k", "v", "t1")`
called in the body of `Transaction` on a fresh store returns a nil error, the
transaction commits, and the store then holds exactly one entry for `k`, with
value `v` and the empty tag, not `t1`; the same call on the idle store leaves
the entry `(k, v, t1)`. -/
theorem AddValueKVT_in_transaction_drops_tag :
    emptySqlite.Transaction putTagged [] none none
        = (.returned none, ⟨⟨[⟨.text "k", .text "v", .text ""⟩], 1⟩, none⟩, [none])
    ∧ (emptySqlite.Transaction putTagged [] none none).2.1.Db.table.filter
        (fun r => r.K = .text "k") ≠ [⟨.text "k", .text "v", .text "t1"⟩]
    ∧ emptySqlite.AddValueKVT ⟨"k", by decide⟩ ⟨"v", by decide⟩ ⟨"t1", by decide⟩ none
        = (none, ⟨⟨[⟨.text "k", .text "v", .text "t1"⟩], 0⟩, none⟩) := by
  decide

/-! ## Keys that are integer literals

`NewStoreSqlite` declares the columns of `KV` with the type `string`, which
gives them NUMERIC affinity; `NewStorePostgresWithValueType` declares
`K text`.  The theorems of this section run both stores on the same writes. -/

/-- C3, evaluated where the code departs from it.  After `AddValueKVT` under
the keys `10`, `9` and `a`, every key is `>= ""` and their ascending
lexicographic order is `10, 9, a`: the Postgres store delivers exactly that to
`IterateByKeyPrefixASCEQ("", 1000, cb)`.  The SQLite store holds `10` and `9`
as integers, which are below every text, and `IterateByKeyPrefixASC("", 1000, cb)`
delivers `a` only; from the bound `1` it delivers `9, 10, a`. -/
theorem IterateByKeyPrefixASC_integer_keys :
    ((sqlitePuts emptySqlite mixedKeyPuts).IterateByKeyPrefixASC ⟨"", by decide⟩ 1000
        collect [] none).calls = [("a", "t", "3")]
    ∧ ((sqlitePuts emptySqlite mixedKeyPuts).IterateByKeyPrefixASC ⟨"", by decide⟩ 1000
        collect [] none).err = none
    ∧ ((sqlitePuts emptySqlite mixedKeyPuts).IterateByKeyPrefixASC ⟨"1", by decide⟩ 1000
        collect [] none).calls = [("9", "t", "2"), ("10", "t", "1"), ("a", "t", "3")]
    ∧ ((postgresPuts emptyPostgres mixedKeyPuts).IterateByKeyPrefixASCEQ "" 1000
        collect [] none).calls = [("10", "t", "1"), ("9", "t", "2"), ("a", "t", "3")] := by
  decide

/-- C4, evaluated where the code departs from it.  After `AddValueKVT` under
the keys `10`, `9` and `a`, every key is `<= "zzz"` and their descending
lexicographic order is `a, 9, 10`: the Postgres store delivers exactly that to
`IterateByKeyPrefixDESCEQ("zzz", 1000, cb)`.  The SQLite store delivers
`a, 10, 9` to `IterateByKeyPrefixDESC("zzz", 1000, cb)`. -/
theorem IterateByKeyPrefixDESC_integer_keys :
    ((sqlitePuts emptySqlite mixedKeyPuts).IterateByKeyPrefixDESC ⟨"zzz", by decide⟩ 1000
        collect [] none).calls = [("a", "t", "3"), ("10", "t", "1"), ("9", "t", "2")]
    ∧ ((sqlitePuts emptySqlite mixedKeyPuts).IterateByKeyPrefixDESC ⟨"zzz", by decide⟩ 1000
        collect [] none).err = none
    ∧ ((postgresPuts emptyPostgres mixedKeyPuts).IterateByKeyPrefixDESCEQ "zzz" 1000
        collect [] none).calls = [("a", "t", "3"), ("9", "t", "2"), ("10", "t", "1")] := by
  decide

/-- C5, evaluated where the code departs from it.  After `AddValueKVT` under
the keys `10` and `9`, the first row of the descending lexicographic order
from `zzz` is `9`: a callback that sets the stop flag on its first invocation
is invoked once, on `9`, by the Postgres store.  The SQLite store invokes it
once, on `10`. -/
theorem IterateByKeyPrefixDESC_stops_on_integer_key :
    ((sqlitePuts emptySqlite numberKeyPuts).IterateByKeyPrefixDESC ⟨"zzz", by decide⟩ 1000
        collectAndStop [] none).calls = [("10", "t", "1")]
    ∧ ((postgresPuts emptyPostgres numberKeyPuts).IterateByKeyPrefixDESCEQ "zzz" 1000
        collectAndStop [] none).calls = [("9", "t", "2")]
    ∧ ((sqlitePuts emptySqlite numberKeyPuts).IterateByKeyPrefixDESC ⟨"zzz", by decide⟩ 1000
        collect [] none).calls = [("10", "t", "1"), ("9", "t", "2")] := by
  decide

/-- C6, evaluated where the code departs from it.  After `AddValueKVT` under
the keys `10` and `9`, the lexicographically smallest key is `10` and the
largest is `9`: the Postgres store returns `(2, "10", "9")` from `CountAll()`.
The SQLite store returns `(2, "9", "10")`. -/
theorem CountAll_integer_keys :
    (sqlitePuts emptySqlite numberKeyPuts).CountAll none = (2, "9", "10")
    ∧ (postgresPuts emptyPostgres numberKeyPuts).CountAll none = (2, "10", "9")
    ∧ emptySqlite.CountAll none = (0, "", "") := by
  decide

/-- C7, evaluated where the code departs from it.  The store holds the entry
`a` with the tag `1` and the entry `b` with the tag `t2`; no entry has the tag
`01`.  `DeleteAllWithTag("01")` on the Postgres store returns nil and removes
nothing.  On the SQLite store it returns nil and removes the entry `a`, and
`GetValue("a")` is nil afterwards.  Likewise an entry written with the tag
`01` is removed by `DeleteAllWithTag("1")`. -/
theorem DeleteAllWithTag_integer_tags :
    (sqlitePuts emptySqlite tagOnePuts).Db.table.map CellRow.read
        = [⟨"a", "1", "1"⟩, ⟨"b", "2", "t2"⟩]
    ∧ (sqlitePuts emptySqlite tagOnePuts).DeleteAllWithTag ⟨"01", by decide⟩ none
        = (none, ⟨⟨[⟨.text "b", .int 2, .text "t2"⟩], 0⟩, none⟩)
    ∧ ((sqlitePuts emptySqlite tagOnePuts).DeleteAllWithTag ⟨"01", by decide⟩ none).2.GetValue
        ⟨"a", by decide⟩ none = none
    ∧ (postgresPuts emptyPostgres tagOnePuts).DeleteAllWithTag "01" none
        = (none, ⟨[⟨"a", "1", "1"⟩, ⟨"b", "2", "t2"⟩]⟩)
    ∧ (sqlitePuts emptySqlite tagZeroOnePuts).DeleteAllWithTag ⟨"1", by decide⟩ none
        = (none, ⟨⟨[⟨.text "b", .int 2, .text "t2"⟩], 0⟩, none⟩)
    ∧ (postgresPuts emptyPostgres tagZeroOnePuts).DeleteAllWithTag "1" none
        = (none, ⟨[⟨"a", "1", "01"⟩, ⟨"b", "2", "t2"⟩]⟩) := by
  decide

/-- C8, evaluated where the code departs from it.  The store holds entries
under the keys `7` and `a`; none under the key `07`.  `DeleteValue("07")` on
the Postgres store returns nil and leaves the store unchanged.  On the SQLite
store it returns nil and removes the entry of the key `7`. -/
theorem DeleteValue_integer_key :
    (sqlitePuts emptySqlite sevenPuts).Db.table.map CellRow.read
        = [⟨"7", "1", "t"⟩, ⟨"a", "2", "t"⟩]
    ∧ (sqlitePuts emptySqlite sevenPuts).DeleteValue ⟨"07", by decide⟩ none
        = (none, ⟨⟨[⟨.text "a", .int 2, .text "t"⟩], 0⟩, none⟩)
    ∧ (postgresPuts emptyPostgres sevenPuts).DeleteValue "07" none
        = (none, postgresPuts emptyPostgres sevenPuts)
    ∧ (postgresPuts emptyPostgres sevenPuts).table = [⟨"7", "1", "t"⟩, ⟨"a", "2", "t"⟩] := by
  decide

/-- C9, evaluated where the code departs from it.  After `AddValueKVT` under
the keys `10` and `9`, with values that decode, the ascending lexicographic
order of the keys is `10, 9` and `StorePostgres.IterateAll` invokes the
callback in that order.  `StoreSqlite.IterateAll` invokes it on `9` first,
then on `10`. -/
theorem IterateAll_integer_keys :
    ((sqlitePuts emptySqlite numberKeyPuts).IterateAll unmarshalNumber collect [] none).calls
        = [("9", "t", "2"), ("10", "t", "1")]
    ∧ ((postgresPuts emptyPostgres numberKeyPuts).IterateAll unmarshalNumber collect
        [] none).calls = [("10", "1", "t"), ("9", "2", "t")] := by
  decide

/-! ## The transaction state machine -/

/-- C10. Transaction state machine.  From an idle store
(`currentTransaction == nil`): when the backend begin succeeds, `Transaction`
invokes the body exactly once, on a store whose `currentTransaction` is the
new handle, and when the body returns the store is idle again and the result
of the commit is returned, whether the commit succeeded (the rows the body
wrote through the transaction are then inserted) or failed (they are then
dropped); when the backend begin fails, the body is not invoked, the error is
returned and the store is left as it was, idle.  From a store in a
transaction, `Transaction` ends the process and changes nothing: no second
transaction is begun. -/
theorem transaction_state_machine {σ : Type} (s : StoreSqlite)
    (block : StoreSqlite → σ → Outcome Unit × StoreSqlite × σ) (st : σ)
    (beginFault commitFault : Option SqlError) :
    (s.currentTransaction = none →
      ∀ u s2 st2,
        block ⟨{ s.Db with begun := s.Db.begun + 1 }, some ⟨s.Db.begun, []⟩⟩ st
          = (.returned u, s2, st2) →
        s.Transaction block st none none
          = (.returned none,
              ⟨{ s2.Db with
                  table := s2.pending.foldl (fun t r => Sqlite.insertRow r t) s2.Db.table },
                none⟩, st2)
        ∧ ∀ e, s.Transaction block st none (some e) = (.returned (some e), ⟨s2.Db, none⟩, st2))
    ∧ (s.currentTransaction = none → ∀ e,
        s.Transaction block st (some e) commitFault = (.returned (some e), s, st))
    ∧ (s.currentTransaction ≠ none →
        s.Transaction block st beginFault commitFault
          = (.fatal "NO CONCURRENT TRANSACTIONS", s, st)) := by
  refine ⟨?_, ?_, ?_⟩
  · intro h u s2 st2 hb
    constructor
    · simp [StoreSqlite.Transaction, h, Db.Begin, hb, Tx.Commit, CheckNotFatal]
    · intro e
      simp [StoreSqlite.Transaction, h, Db.Begin, hb, Tx.Commit, CheckNotFatal]
  · intro h e
    cases s with
    | mk db tx =>
      simp only at h
      subst h
      simp [StoreSqlite.Transaction, Db.Begin, CheckNotFatal]
  · intro h
    cases hs : s.currentTransaction with
    | none => exact absurd hs h
    | some tx => simp [StoreSqlite.Transaction, hs]

/-- A body that counts its invocations is run once, in the transaction; the
store is idle afterwards, with the row of the body when the commit succeeds
and without it when the commit fails; a failed begin runs nothing; a body that
calls `Transaction` ends the process inside the first transaction, the only
one begun. -/
theorem transaction_state_machine_witness :
    emptySqlite.currentTransaction = none
    ∧ emptySqlite.Transaction putAndCount 0 (some (.backend "begin")) none
        = (.returned (some (.backend "begin")), emptySqlite, 0)
    ∧ emptySqlite.Transaction putAndCount 0 none none
        = (.returned none, ⟨⟨[⟨.text "k", .text "v", .text ""⟩], 1⟩, none⟩, 1)
    ∧ emptySqlite.Transaction putAndCount 0 none (some (.backend "commit"))
        = (.returned (some (.backend "commit")), ⟨⟨[], 1⟩, none⟩, 1)
    ∧ emptySqlite.Transaction reenter 0 none none
        = (.fatal "NO CONCURRENT TRANSACTIONS", ⟨⟨[], 1⟩, some ⟨0, []⟩⟩, 1) :=
  ⟨rfl,
    (transaction_state_machine emptySqlite putAndCount 0 none none).2.1 rfl (.backend "begin"),
    ((transaction_state_machine emptySqlite putAndCount 0 none none).1 rfl () _ _ rfl).1,
    ((transaction_state_machine emptySqlite putAndCount 0 none none).1 rfl () _ _ rfl).2
      (.backend "commit"),
    by decide⟩

/-! ## The two backends side by side -/

/-- C11, evaluated where the code departs from it.  On the same contents, one
entry `(a, 1, t)` whose value decodes, and with the same callback,
`StoreSqlite.IterateAll` invokes the callback with `(key, tag, value)` and
`StorePostgres.IterateAll` with `(key, value, tag)`: the two sequences of
positional arguments differ, and so does what the callback collects. -/
theorem IterateAll_argument_order_differs :
    ((sqlitePuts emptySqlite oneEntryPuts).IterateAll unmarshalNumber collect [] none).calls
        = [("a", "t", "1")]
    ∧ ((postgresPuts emptyPostgres oneEntryPuts).IterateAll unmarshalNumber collect
        [] none).calls = [("a", "1", "t")]
    ∧ ((sqlitePuts emptySqlite oneEntryPuts).IterateAll unmarshalNumber collect [] none).calls
        ≠ ((postgresPuts emptyPostgres oneEntryPuts).IterateAll unmarshalNumber collect
            [] none).calls
    ∧ ((sqlitePuts emptySqlite oneEntryPuts).IterateAll unmarshalNumber collect [] none).state
        = ["a", "1"]
    ∧ ((postgresPuts emptyPostgres oneEntryPuts).IterateAll unmarshalNumber collect
        [] none).state = ["a", "t"] := by
  decide

/-! ## Scan of the values -/

theorem Scan2_cols (r : Row) : Scan2 r.cols = .error (.scanArity 3 2) := rfl

theorem valuesLoop_cols {σ : Type} (block : σ → String → String → σ × Bool)
    (rows : CellTable) (st : σ) :
    StoreSqlite.valuesLoop block (rows.map (fun r => r.read.cols)) st = (st, []) := by
  induction rows with
  | nil => rfl
  | cons r rest ih => simpa [StoreSqlite.valuesLoop, Scan2_cols] using ih

/-- C12, evaluated where the code departs from it.  `IterateDSCStmt` returns the
three columns `K, V, T` and every row is scanned into the two destinations `k`
and `v`, so `Scan` fails on every row and the row is passed over: for every
store contents, `numItems` and callback, `IterateValuesAsJSON` never invokes
the callback and leaves the state of the caller as it was.  On the three
entries of the tests, with `numItems = 1000`, nothing is collected. -/
theorem IterateValuesAsJSON_never_invokes :
    (∀ (σ : Type) (s : StoreSqlite) (block : σ → String → String → σ × Bool)
        (numItems : Int) (st : σ) (fault : Option SqlError),
        s.IterateValuesAsJSON block numItems st fault = (st, []))
    ∧ farmSqlite.IterateValuesAsJSON collectPair 1000 [] none = ([], []) := by
  refine ⟨?_, by decide⟩
  intro σ s block numItems st fault
  cases fault with
  | some e => rfl
  | none =>
    simp only [StoreSqlite.IterateValuesAsJSON, Query, Sqlite.IterateDSCStmt]
    exact valuesLoop_cols block _ st

/-! ## What holds of the Postgres store, and of the loops of both stores

The statements of `NewStorePostgresWithValueType` compare keys and tags as
texts, and the loops over the result sets are the same in both stores. -/

theorem orderByKAsc_perm (tbl : Table) : (orderByKAsc tbl).Perm tbl :=
  List.perm_insertionSort _ tbl

theorem orderByKDesc_perm (tbl : Table) : (orderByKDesc tbl).Perm tbl :=
  List.perm_insertionSort _ tbl

theorem orderByKAsc_sorted (tbl : Table) :
    (orderByKAsc tbl).Sorted (fun a b => a.K ≤ b.K) := by
  have total : IsTotal Row (fun a b => keyLE a.K b.K = true) :=
    ⟨fun a b => by simpa [keyLE_iff_le] using le_total a.K b.K⟩
  have trans : IsTrans Row (fun a b => keyLE a.K b.K = true) :=
    ⟨fun a b c hab hbc => by
      rw [keyLE_iff_le] at *
      exact le_trans hab hbc⟩
  have h := List.sorted_insertionSort (fun a b : Row => keyLE a.K b.K = true) tbl
  exact List.Pairwise.imp (fun {a b} hab => (keyLE_iff_le a.K b.K).1 hab) h

theorem orderByKDesc_sorted (tbl : Table) :
    (orderByKDesc tbl).Sorted (fun a b => b.K ≤ a.K) := by
  have total : IsTotal Row (fun a b => keyLE b.K a.K = true) :=
    ⟨fun a b => by simpa [keyLE_iff_le] using le_total b.K a.K⟩
  have trans : IsTrans Row (fun a b => keyLE b.K a.K = true) :=
    ⟨fun a b c hab hbc => by
      rw [keyLE_iff_le] at *
      exact le_trans hbc hab⟩
  have h := List.sorted_insertionSort (fun a b : Row => keyLE b.K a.K = true) tbl
  exact List.Pairwise.imp (fun {a b} hab => (keyLE_iff_le b.K a.K).1 hab) h

theorem filter_keyGE (tbl : Table) (k : String) :
    tbl.filter (fun r => keyLE k r.K) = tbl.filter (fun r => k ≤ r.K) := by
  apply List.filter_congr
  intro r _
  by_cases h : k ≤ r.K
  · simp [h, (keyLE_iff_le k r.K).2 h]
  · have : keyLE k r.K = false := by
      cases hk : keyLE k r.K
      · rfl
      · exact absurd ((keyLE_iff_le k r.K).1 hk) h
    simp [h, this]

theorem filter_keyLE (tbl : Table) (k : String) :
    tbl.filter (fun r => keyLE r.K k) = tbl.filter (fun r => r.K ≤ k) := by
  apply List.filter_congr
  intro r _
  by_cases h : r.K ≤ k
  · simp [h, (keyLE_iff_le r.K k).2 h]
  · have : keyLE r.K k = false := by
      cases hk : keyLE r.K k
      · rfl
      · exact absurd ((keyLE_iff_le r.K k).1 hk) h
    simp [h, this]

theorem ascendingFrom_orderBy (tbl : Table) (k : String) :
    AscendingFrom tbl k (orderByKAsc (tbl.filter (fun r => keyLE k r.K))) := by
  refine ⟨?_, orderByKAsc_sorted _⟩
  rw [← filter_keyGE]
  exact orderByKAsc_perm _

theorem descendingFrom_orderBy (tbl : Table) (k : String) :
    DescendingFrom tbl k (orderByKDesc (tbl.filter (fun r => keyLE r.K k))) := by
  refine ⟨?_, orderByKDesc_sorted _⟩
  rw [← filter_keyLE]
  exact orderByKDesc_perm _

theorem limitPostgres_nonneg (n : Int) (h : 0 ≤ n) (rows : Table) :
    limitPostgres n rows = .ok (rows.take n.toNat) := by
  simp [limitPostgres, not_lt.2 h]

theorem prefixLoop_noStop {σ : Type} (block : σ → String → String → String → σ × Bool)
    (h : ∀ st k t v, (block st k t v).2 = false) (rows : Table) (st : σ) :
    prefixLoop block (rows.map Row.cols) st
      = ⟨deliver block rows st, rows.map Row.ktv, none⟩ := by
  induction rows generalizing st with
  | nil => rfl
  | cons r rest ih =>
    simp only [List.map_cons, prefixLoop, Scan3_cols, h, deliver, List.foldl_cons,
      ih]
    simp [Row.ktv]

theorem StorePostgres.IterateByKeyPrefixASCEQ_eq {σ : Type} (p : StorePostgres) (k : String)
    (limit : Int) (hlimit : 0 ≤ limit)
    (block : σ → String → String → String → σ × Bool) (st : σ) :
    p.IterateByKeyPrefixASCEQ k limit block st none
      = prefixLoop block (((orderByKAsc
          (p.table.filter (fun r => keyLE k r.K))).take limit.toNat).map Row.cols) st := by
  simp only [IterateByKeyPrefixASCEQ, queryChecked, Query, Postgres.IterateByPrefixASCEQ,
    limitPostgres_nonneg limit hlimit, Except.map]

theorem StorePostgres.IterateByKeyPrefixDESCEQ_eq {σ : Type} (p : StorePostgres) (k : String)
    (limit : Int) (hlimit : 0 ≤ limit)
    (block : σ → String → String → String → σ × Bool) (st : σ) :
    p.IterateByKeyPrefixDESCEQ k limit block st none
      = prefixLoop block (((orderByKDesc
          (p.table.filter (fun r => keyLE r.K k))).take limit.toNat).map Row.cols) st := by
  simp only [IterateByKeyPrefixDESCEQ, queryChecked, Query, Postgres.IterateByPrefixDSCEQ,
    limitPostgres_nonneg limit hlimit, Except.map]

theorem prefixLoop_deliveredUntilStop {σ : Type}
    (block : σ → String → String → String → σ × Bool) (rows : List Row) (st : σ) :
    DeliveredUntilStop block rows st (prefixLoop block (rows.map Row.cols) st)
    ∧ (prefixLoop block (rows.map Row.cols) st).err = none := by
  induction rows generalizing st with
  | nil => exact ⟨⟨[], [], rfl, rfl, rfl, by simp, by simp⟩, rfl⟩
  | cons r rest ih =>
    cases hb : (block st r.K r.T r.V).2 with
    | true =>
      have hloop : prefixLoop block ((r :: rest).map Row.cols) st
          = ⟨(block st r.K r.T r.V).1, [r.ktv], none⟩ := by
        simp [prefixLoop, Scan3_cols, hb, Row.ktv]
      rw [hloop]
      refine ⟨⟨[r], rest, rfl, rfl, rfl, ?_, ?_⟩, rfl⟩
      · intro p x q hp hq
        cases p with
        | nil =>
          simp at hp
          exact absurd hp.2 hq
        | cons p0 p' =>
          simp at hp
      · intro _
        exact ⟨[], r, rfl, hb⟩
    | false =>
      obtain ⟨⟨pre, post, hrows, hcalls, hstate, hmid, hlast⟩, herr⟩ :=
        ih (block st r.K r.T r.V).1
      have hloop : prefixLoop block ((r :: rest).map Row.cols) st
          = ⟨(prefixLoop block (rest.map Row.cols) (block st r.K r.T r.V).1).state,
             r.ktv ::
               (prefixLoop block (rest.map Row.cols) (block st r.K r.T r.V).1).calls,
             (prefixLoop block (rest.map Row.cols) (block st r.K r.T r.V).1).err⟩ := by
        simp [prefixLoop, Scan3_cols, hb, Row.ktv]
      rw [hloop]
      refine ⟨⟨r :: pre, post, by simp [hrows], by simp [hcalls], by simpa [deliver] using hstate,
        ?_, ?_⟩, herr⟩
      · intro p x q hp hq
        cases p with
        | nil =>
          simp at hp
          rw [← hp.1]
          simpa [deliver] using hb
        | cons p0 p' =>
          simp at hp
          have := hmid p' x q hp.2 hq
          rw [← hp.1]
          simpa [deliver] using this
      · intro hpost
        obtain ⟨p, x, hp, hx⟩ := hlast hpost
        exact ⟨r :: p, x, by simp [hp], by simpa [deliver] using hx⟩

theorem DeliveredUntilStop.first {σ : Type}
    {block : σ → String → String → String → σ × Bool} {r : Row} {rest : List Row} {st : σ}
    {it : Iter σ} (h : DeliveredUntilStop block (r :: rest) st it)
    (hstop : (block st r.K r.T r.V).2 = true) :
    it.calls = [r.ktv] ∧ it.state = (block st r.K r.T r.V).1 := by
  obtain ⟨pre, post, hrows, hcalls, hstate, hmid, hlast⟩ := h
  cases pre with
  | nil =>
    have hpost : post ≠ [] := by
      intro hp
      simp [hp] at hrows
    obtain ⟨p, x, hp, _⟩ := hlast hpost
    simp at hp
  | cons a pre' =>
    simp at hrows
    obtain ⟨ha, _⟩ := hrows
    subst ha
    cases pre' with
    | nil => exact ⟨by simpa using hcalls, by simpa [deliver] using hstate⟩
    | cons b q =>
      have := hmid [] r (b :: q) rfl (by simp)
      simp [deliver] at this
      rw [this] at hstop
      cases hstop


/-- What holds of C3 on the Postgres store: for `limit >= 0` and a callback
that never sets the stop flag, `IterateByKeyPrefixASCEQ` delivers the first
`limit` entries with `Key >= startKey` in ascending lexicographic order, each
as `(key, tag, value)`, and returns nil. -/
theorem postgres_iterate_ascending_bound {σ : Type} (p : StorePostgres)
    (startKey : String) (limit : Int) (hlimit : 0 ≤ limit)
    (block : σ → String → String → String → σ × Bool)
    (hstop : ∀ st k t v, (block st k t v).2 = false) (st : σ) :
    ∃ sorted, AscendingFrom p.table startKey sorted ∧
      (p.IterateByKeyPrefixASCEQ startKey limit block st none).calls
          = (sorted.take limit.toNat).map Row.ktv ∧
      (p.IterateByKeyPrefixASCEQ startKey limit block st none).state
          = deliver block (sorted.take limit.toNat) st ∧
      (p.IterateByKeyPrefixASCEQ startKey limit block st none).err = none := by
  refine ⟨_, ascendingFrom_orderBy p.table startKey, ?_⟩
  rw [StorePostgres.IterateByKeyPrefixASCEQ_eq p startKey limit hlimit,
    prefixLoop_noStop block hstop]
  exact ⟨rfl, rfl, rfl⟩

/-- What holds of C4 on the Postgres store. -/
theorem postgres_iterate_descending_bound {σ : Type} (p : StorePostgres)
    (startKey : String) (limit : Int) (hlimit : 0 ≤ limit)
    (block : σ → String → String → String → σ × Bool)
    (hstop : ∀ st k t v, (block st k t v).2 = false) (st : σ) :
    ∃ sorted, DescendingFrom p.table startKey sorted ∧
      (p.IterateByKeyPrefixDESCEQ startKey limit block st none).calls
          = (sorted.take limit.toNat).map Row.ktv ∧
      (p.IterateByKeyPrefixDESCEQ startKey limit block st none).state
          = deliver block (sorted.take limit.toNat) st ∧
      (p.IterateByKeyPrefixDESCEQ startKey limit block st none).err = none := by
  refine ⟨_, descendingFrom_orderBy p.table startKey, ?_⟩
  rw [StorePostgres.IterateByKeyPrefixDESCEQ_eq p startKey limit hlimit,
    prefixLoop_noStop block hstop]
  exact ⟨rfl, rfl, rfl⟩

/-- What holds of C5 on the Postgres store: for `limit >= 0` and every
callback, the two bounded iterations deliver the rows of the bounded,
lexicographically ordered result up to and including the first one on which
the callback sets the stop flag. -/
theorem postgres_iterate_early_stop {σ : Type} (p : StorePostgres)
    (startKey : String) (limit : Int) (hlimit : 0 ≤ limit)
    (block : σ → String → String → String → σ × Bool) (st : σ) :
    (∃ sorted, AscendingFrom p.table startKey sorted ∧
      DeliveredUntilStop block (sorted.take limit.toNat) st
        (p.IterateByKeyPrefixASCEQ startKey limit block st none))
    ∧ (∃ sorted, DescendingFrom p.table startKey sorted ∧
      DeliveredUntilStop block (sorted.take limit.toNat) st
        (p.IterateByKeyPrefixDESCEQ startKey limit block st none)) := by
  refine ⟨⟨_, ascendingFrom_orderBy p.table startKey, ?_⟩,
    ⟨_, descendingFrom_orderBy p.table startKey, ?_⟩⟩
  · rw [StorePostgres.IterateByKeyPrefixASCEQ_eq p startKey limit hlimit]
    exact (prefixLoop_deliveredUntilStop block _ st).1
  · rw [StorePostgres.IterateByKeyPrefixDESCEQ_eq p startKey limit hlimit]
    exact (prefixLoop_deliveredUntilStop block _ st).1

/-- What holds of C5 on the SQLite store: for every limit and callback, the
two bounded iterations deliver the rows of the result set of their statement,
in the order of the engine, up to and including the first one on which the
callback sets the stop flag. -/
theorem sqlite_iterate_early_stop {σ : Type} (s : StoreSqlite)
    (startKey : Param) (limit : Int)
    (block : σ → String → String → String → σ × Bool) (st : σ) :
    DeliveredUntilStop block ((Sqlite.rowsASC startKey limit s.Db.table).map CellRow.read) st
        (s.IterateByKeyPrefixASC startKey limit block st none)
    ∧ DeliveredUntilStop block ((Sqlite.rowsDSC startKey limit s.Db.table).map CellRow.read) st
        (s.IterateByKeyPrefixDESC startKey limit block st none) := by
  constructor
  · have h := (prefixLoop_deliveredUntilStop block
      ((Sqlite.rowsASC startKey limit s.Db.table).map CellRow.read) st).1
    simpa [StoreSqlite.IterateByKeyPrefixASC, Query, Sqlite.IterateByPrefixASC, List.map_map,
      Function.comp_def] using h
  · have h := (prefixLoop_deliveredUntilStop block
      ((Sqlite.rowsDSC startKey limit s.Db.table).map CellRow.read) st).1
    simpa [StoreSqlite.IterateByKeyPrefixDESC, Query, Sqlite.IterateByPrefixDSC, List.map_map,
      Function.comp_def] using h

theorem minKey_spec (keys : List String) (h : keys ≠ []) :
    ∃ m, minKey keys = some m ∧ m ∈ keys ∧ ∀ k ∈ keys, m ≤ k := by
  induction keys with
  | nil => exact absurd rfl h
  | cons k ks ih =>
    cases ks with
    | nil => exact ⟨k, rfl, by simp, by simp⟩
    | cons k' ks' =>
      obtain ⟨m, hm, hmem, hle⟩ := ih (by simp)
      by_cases hk : keyLE k m = true
      · refine ⟨k, by rw [minKey, hm]; simp [hk], by simp, ?_⟩
        intro x hx
        rcases List.mem_cons.1 hx with rfl | hx
        · exact le_refl _
        · exact le_trans ((keyLE_iff_le k m).1 hk) (hle x hx)
      · refine ⟨m, by rw [minKey, hm]; simp [hk], List.mem_cons_of_mem _ hmem, ?_⟩
        intro x hx
        rcases List.mem_cons.1 hx with rfl | hx
        · have : ¬ x ≤ m := fun hx' => hk ((keyLE_iff_le x m).2 hx')
          exact le_of_lt (not_le.1 this)
        · exact hle x hx

theorem maxKey_spec (keys : List String) (h : keys ≠ []) :
    ∃ m, maxKey keys = some m ∧ m ∈ keys ∧ ∀ k ∈ keys, k ≤ m := by
  induction keys with
  | nil => exact absurd rfl h
  | cons k ks ih =>
    cases ks with
    | nil => exact ⟨k, rfl, by simp, by simp⟩
    | cons k' ks' =>
      obtain ⟨m, hm, hmem, hle⟩ := ih (by simp)
      by_cases hk : keyLE m k = true
      · refine ⟨k, by rw [maxKey, hm]; simp [hk], by simp, ?_⟩
        intro x hx
        rcases List.mem_cons.1 hx with rfl | hx
        · exact le_refl _
        · exact le_trans (hle x hx) ((keyLE_iff_le m k).1 hk)
      · refine ⟨m, by rw [maxKey, hm]; simp [hk], List.mem_cons_of_mem _ hmem, ?_⟩
        intro x hx
        rcases List.mem_cons.1 hx with rfl | hx
        · have : ¬ m ≤ x := fun hx' => hk ((keyLE_iff_le m x).2 hx')
          exact le_of_lt (not_le.1 this)
        · exact hle x hx

theorem getValue_table (tbl : Table) (k : String) :
    (match Query (Postgres.GetStmt k) none tbl with
      | .error _ => none
      | .ok res =>
        match res with
        | [] => none
        | cols :: _ =>
          match Scan3 cols with
          | .error _ => none
          | .ok (_, v, _) => some v)
      = ((tbl.filter (fun r => r.K = k)).head?).map Row.V := by
  simp only [Query, Postgres.GetStmt]
  cases h : tbl.filter (fun r => r.K = k) with
  | nil => rfl
  | cons r rest => simp [Scan3_cols]

theorem postgres_GetValue_eq (p : StorePostgres) (k : String) :
    p.GetValue k none = ((p.table.filter (fun r => r.K = k)).head?).map Row.V :=
  getValue_table p.table k

theorem KeysUnique.eq_of_key {tbl : Table} (h : KeysUnique tbl) {a b : Row}
    (ha : a ∈ tbl) (hb : b ∈ tbl) (hk : a.K = b.K) : a = b :=
  List.inj_on_of_nodup_map h ha hb hk

theorem filter_key_deleteStmtTag_of_tagged {tbl : Table} (h : KeysUnique tbl) {r : Row}
    (hr : r ∈ tbl) (t : String) (ht : r.T = t) :
    (Postgres.DeleteStmtTag t tbl).filter (fun x => x.K = r.K) = [] := by
  rw [List.filter_eq_nil_iff]
  intro x hx hxk
  simp [Postgres.DeleteStmtTag] at hx
  have hxr : x = r := h.eq_of_key hx.1 hr (by simpa using hxk)
  exact hx.2 (hxr ▸ ht)

theorem filter_key_deleteStmtTag_of_untagged (tbl : Table) (k t : String)
    (h : ∀ r ∈ tbl, r.K = k → r.T ≠ t) :
    (Postgres.DeleteStmtTag t tbl).filter (fun x => x.K = k) = tbl.filter (fun x => x.K = k) := by
  simp only [Postgres.DeleteStmtTag, List.filter_filter]
  apply List.filter_congr
  intro x hx
  by_cases hk : x.K = k
  · simp [hk, h x hx hk]
  · simp [hk]

theorem deleteStmt_of_absent (tbl : Table) (k : String) (h : ∀ r ∈ tbl, r.K ≠ k) :
    Postgres.DeleteStmt k tbl = tbl := by
  simp only [Postgres.DeleteStmt]
  rw [List.filter_eq_self]
  intro r hr
  simpa using h r hr

theorem deleteStmt_of_present {tbl : Table} (h : KeysUnique tbl) {r : Row} (hr : r ∈ tbl) :
    Postgres.DeleteStmt r.K tbl = tbl.erase r := by
  have hnd : tbl.Nodup := List.Nodup.of_map _ h
  rw [hnd.erase_eq_filter]
  simp only [Postgres.DeleteStmt]
  apply List.filter_congr
  intro x hx
  by_cases hxr : x = r
  · simp [hxr]
  · have : x.K ≠ r.K := fun hk => hxr (h.eq_of_key hx hr hk)
    simp [hxr, this]

theorem sqlite_allLoop_noStop {σ : Type} (Unmarshal : String → σ → σ × Bool)
    (decodes : String → Bool) (hdec : ∀ v st, (Unmarshal v st).2 = decodes v)
    (block : σ → String → String → String → σ × Bool)
    (hstop : ∀ st k t v, (block st k t v).2 = false) (rows : Table) (st : σ) :
    (StoreSqlite.allLoop Unmarshal block (rows.map Row.cols) st).calls
      = (rows.filter (fun r => decodes r.V)).map Row.ktv := by
  induction rows generalizing st with
  | nil => rfl
  | cons r rest ih =>
    cases hd : decodes r.V with
    | true => simp [StoreSqlite.allLoop, Scan3_cols, hdec, hd, hstop, ih, Row.ktv]
    | false => simp [StoreSqlite.allLoop, Scan3_cols, hdec, hd, ih]

theorem postgres_allLoop_noStop {σ : Type} (Unmarshal : String → σ → σ × Bool)
    (decodes : String → Bool) (hdec : ∀ v st, (Unmarshal v st).2 = decodes v)
    (block : σ → String → String → String → σ × Bool)
    (hstop : ∀ st k t v, (block st k t v).2 = false) (rows : Table) (st : σ) :
    (StorePostgres.allLoop Unmarshal block (rows.map Row.cols) st).calls
      = (rows.filter (fun r => decodes r.V)).map Row.kvt := by
  induction rows generalizing st with
  | nil => rfl
  | cons r rest ih =>
    cases hd : decodes r.V with
    | true => simp [StorePostgres.allLoop, Scan3_cols, hdec, hd, hstop, ih, Row.kvt]
    | false => simp [StorePostgres.allLoop, Scan3_cols, hdec, hd, ih]

/-- What holds of C6 on the Postgres store: `(n, least key, greatest key)` in
the lexicographic order for a non-empty store, `(0, "", "")` for the empty
one. -/
theorem postgres_countAll (p : StorePostgres) :
    (p.table ≠ [] → IsCountMinMax p.table (p.CountAll none))
    ∧ (p.table = [] → p.CountAll none = (0, "", "")) := by
  constructor
  · intro h
    have hk : p.table.map Row.K ≠ [] := by simpa using h
    obtain ⟨mn, hmn, hmnmem, hmnle⟩ := minKey_spec _ hk
    obtain ⟨mx, hmx, hmxmem, hmxle⟩ := maxKey_spec _ hk
    simp only [StorePostgres.CountAll, Query, Postgres.CountAllStmt, ScanCount, hmn, hmx]
    refine ⟨rfl, ?_, ?_, ?_⟩
    · simpa using hmnmem
    · simpa using hmxmem
    · intro r hr
      exact ⟨hmnle _ (List.mem_map_of_mem _ hr), hmxle _ (List.mem_map_of_mem _ hr)⟩
  · intro h
    cases p with
    | mk tbl =>
      simp only at h
      subst h
      rfl

/-- What holds of C7 on the Postgres store: on a healthy backend
`DeleteAllWithTag(t)` returns nil and leaves exactly the entries whose tag
differs from `t`; with unique keys `GetValue` is nil for the keys that were
tagged `t` and unchanged for the keys with no entry tagged `t`. -/
theorem postgres_deleteAllWithTag (p : StorePostgres) (t : String) :
    p.DeleteAllWithTag t none = (none, ⟨p.table.filter (fun r => r.T ≠ t)⟩)
    ∧ (KeysUnique p.table → ∀ r ∈ p.table, r.T = t →
        (p.DeleteAllWithTag t none).2.GetValue r.K none = none)
    ∧ (∀ k, (∀ r ∈ p.table, r.K = k → r.T ≠ t) →
        (p.DeleteAllWithTag t none).2.GetValue k none = p.GetValue k none) := by
  have htbl : (p.DeleteAllWithTag t none).2.table = Postgres.DeleteStmtTag t p.table := rfl
  refine ⟨rfl, ?_, ?_⟩
  · intro hu r hr ht
    rw [postgres_GetValue_eq, htbl, filter_key_deleteStmtTag_of_tagged hu hr t ht]
    rfl
  · intro k hk
    rw [postgres_GetValue_eq, postgres_GetValue_eq, htbl,
      filter_key_deleteStmtTag_of_untagged _ k t hk]

/-- What holds of C8 on the Postgres store: on a healthy backend
`DeleteValue(k)` returns nil; with no entry under `k` the store is unchanged,
and with one (keys being unique) exactly that entry is removed. -/
theorem postgres_deleteValue (p : StorePostgres) (k : String) :
    (p.DeleteValue k none).1 = none
    ∧ ((∀ r ∈ p.table, r.K ≠ k) → p.DeleteValue k none = (none, p))
    ∧ (KeysUnique p.table → ∀ r ∈ p.table, r.K = k →
        p.DeleteValue k none = (none, ⟨p.table.erase r⟩)) := by
  refine ⟨rfl, ?_, ?_⟩
  · intro h
    simp [StorePostgres.DeleteValue, Exec, CheckNotFatal, deleteStmt_of_absent _ k h]
  · intro hu r hr hk
    subst hk
    simp [StorePostgres.DeleteValue, Exec, CheckNotFatal, deleteStmt_of_present hu hr]

/-- What holds of C9 on the Postgres store: with a codec whose success depends
on the payload only and a callback that never sets the stop flag, `IterateAll`
invokes the callback, with `(k, v, t)`, once for each entry whose value
decodes, in ascending lexicographic order of the keys. -/
theorem postgres_iterateAll {σ : Type} (p : StorePostgres)
    (Unmarshal : String → σ → σ × Bool) (decodes : String → Bool)
    (hdec : ∀ v st, (Unmarshal v st).2 = decodes v)
    (block : σ → String → String → String → σ × Bool)
    (hstop : ∀ st k t v, (block st k t v).2 = false) (st : σ) :
    ∃ sorted, AscendingAll p.table sorted ∧
      (p.IterateAll Unmarshal block st none).calls
        = (sorted.filter (fun r => decodes r.V)).map Row.kvt :=
  ⟨orderByKAsc p.table, ⟨orderByKAsc_perm _, orderByKAsc_sorted _⟩,
    postgres_allLoop_noStop Unmarshal decodes hdec block hstop _ st⟩

/-- What holds of C9 on the SQLite store: under the same conditions
`IterateAll` invokes the callback, with `(k, t, v)`, once for each stored row
whose value decodes, in the order `ORDER BY K` of the engine. -/
theorem sqlite_iterateAll {σ : Type} (s : StoreSqlite)
    (Unmarshal : String → σ → σ × Bool) (decodes : String → Bool)
    (hdec : ∀ v st, (Unmarshal v st).2 = decodes v)
    (block : σ → String → String → String → σ × Bool)
    (hstop : ∀ st k t v, (block st k t v).2 = false) (st : σ) :
    (s.IterateAll Unmarshal block st none).calls
      = (((cellOrderAsc s.Db.table).map CellRow.read).filter
          (fun r => decodes r.V)).map Row.ktv := by
  have h := sqlite_allLoop_noStop Unmarshal decodes hdec block hstop
    ((cellOrderAsc s.Db.table).map CellRow.read) st
  simpa [StoreSqlite.IterateAll, Query, Sqlite.IterateAllStmt, List.map_map,
    Function.comp_def] using h

end Gokvstore
